import Mathlib

/-!
Verification of the note-store adapter of the simple-notes-app repository.

The repository ships two JavaScript variants of the same single-file React
app:
* `src/notes_frontend/src/App.js` (modelled in namespace `NotesFrontend`),
  where localStorage is a read-only fallback used only on transport failure;
* `src/unnamed/part_000` (modelled in namespace `Part000`), where any API
  failure falls back to localStorage and writes are synthesized locally.

The data layer of each variant is embedded below as pure Lean functions.
Network interaction is modelled by passing in the outcome the environment
would produce for the single fetch an operation performs; the localStorage
cell is threaded explicitly as a `LocalStore` value, and each operation
reports how many fetches it issued.  JS strings are modelled as Lean
strings (the sources only ever compare and concatenate them); `.length` is
the number of characters, which agrees with JS on the ASCII data used here.
The exact message text of errors thrown by the JS runtime itself
(`TypeError` from `fetch`, `SyntaxError` from `JSON.parse`) is
environment-dependent and is modelled by fixed representative strings;
what the code inspects is only whether the error is a `TypeError`.
Cache writes (`localStorage.setItem`) are modelled as always succeeding.
-/

/-- A fragment of JavaScript values sufficient for the fields the data
layer reads from parsed JSON: `undefined`, `null`, or a string. -/
inductive JSVal where
  | undef
  | nullv
  | str (s : String)
deriving DecidableEq

/-- JavaScript `String(v)` on the modelled values. -/
def JSVal.toStringJS : JSVal → String
  | .undef => "undefined"
  | .nullv => "null"
  | .str s => s

/-- Whether a value is nullish (`undefined` or `null`), as tested by `??`. -/
def JSVal.isNullish : JSVal → Bool
  | .undef => true
  | .nullv => true
  | .str _ => false

/-- JavaScript nullish coalescing `a ?? b`. -/
def jsCoalesce (a b : JSVal) : JSVal :=
  if a.isNullish then b else a

/-- JavaScript whitespace for `String.prototype.trim` (the fragment the
app can receive from its text inputs). -/
def isJsWhitespace (c : Char) : Bool :=
  c = ' ' || c = '\t' || c = '\n' || c = '\r'

/-- JavaScript `s.trim()`: strip whitespace from both ends. -/
def jsTrim (s : String) : String :=
  String.mk (((s.toList.dropWhile isJsWhitespace).reverse.dropWhile isJsWhitespace).reverse)

/-- The editor draft `{ title, content }` handled by `handleSave`. -/
structure Draft where
  title : String
  content : String
deriving DecidableEq

/-- `validateDraft` — identical text in both variants (App.js lines
109–119, part_000 lines 81–91).  Returns the error message, or `""` when
the draft is valid. -/
def validateDraft (d : Draft) : String :=
  let title := jsTrim d.title
  let content := jsTrim d.content
  if title = "" && content = "" then
    "Please add a title or some content."
  else if title.length > 120 then
    "Title is too long (max 120 characters)."
  else ""

/-- A raw note object as it appears in parsed JSON (from the API or the
localStorage cache).  Fields the code never wrote are `undefined`. -/
structure RawNote where
  id : JSVal := .undef
  title : JSVal := .undef
  content : JSVal := .undef
  createdAt : JSVal := .undef
  created_at : JSVal := .undef
  updatedAt : JSVal := .undef
  updated_at : JSVal := .undef
deriving DecidableEq

/-- The state of the localStorage key `simple-notes-app.notes.v1`:
absent, holding a string `JSON.parse` rejects, holding JSON that is not an
array, or holding a JSON array of objects. -/
inductive LocalStore where
  | absent
  | invalidJson
  | jsonNonArray
  | jsonArray (entries : List RawNote)
deriving DecidableEq

/-- `(s || "").replace(/\/$/, "")`: strip one trailing slash. -/
def stripTrailingSlash (s : String) : String :=
  match s.toList.getLast? with
  | some '/' => String.mk s.toList.dropLast
  | _ => s

/-- JavaScript `s.startsWith("/")`. -/
def startsWithSlash (s : String) : Bool :=
  match s.toList with
  | '/' :: _ => true
  | _ => false

/-- Lexicographic comparison of character lists, as JavaScript `<`
compares strings (code-unit order; a strict prolongation is greater). -/
def jsStringLtAux : List Char → List Char → Bool
  | _, [] => false
  | [], _ :: _ => true
  | a :: as, b :: bs =>
      if a < b then true else if b < a then false else jsStringLtAux as bs

/-- JavaScript `a < b` on strings. -/
def jsStringLt (a b : String) : Bool :=
  jsStringLtAux a.toList b.toList

theorem jsStringLtAux_asymm : ∀ {x y : List Char},
    jsStringLtAux x y = true → jsStringLtAux y x = false
  | x, y => by
    induction x generalizing y with
    | nil =>
        cases y with
        | nil => intro h; cases h
        | cons b bs => intro _; rfl
    | cons a as ih =>
        cases y with
        | nil => intro h; cases h
        | cons b bs =>
            simp only [jsStringLtAux]
            intro h
            by_cases hab : a < b
            · have hba : ¬ b < a := lt_asymm hab
              simp [hab, hba]
            · by_cases hba : b < a
              · simp [hab, hba] at h
              · simp only [hab, hba, if_false] at h
                simp [hab, hba, ih bs h]

theorem jsStringLtAux_cotrans : ∀ {x z : List Char} (y : List Char),
    jsStringLtAux x z = true → jsStringLtAux x y = true ∨ jsStringLtAux y z = true
  | x, z, y => by
    induction x generalizing y z with
    | nil =>
        cases z with
        | nil => intro h; cases h
        | cons c cs =>
            cases y with
            | nil => intro _; exact Or.inr rfl
            | cons b bs => intro _; exact Or.inl rfl
    | cons a as ih =>
        cases z with
        | nil => intro h; cases h
        | cons c cs =>
            cases y with
            | nil => intro _; exact Or.inr rfl
            | cons b bs =>
                simp only [jsStringLtAux]
                intro h
                by_cases hab : a < b
                · exact Or.inl (by simp [hab])
                · by_cases hba : b < a
                  · right
                    by_cases hac : a < c
                    · simp [lt_trans hba hac]
                    · by_cases hca : c < a
                      · simp [hac, hca] at h
                      · have hAC : a = c := le_antisymm (not_lt.1 hca) (not_lt.1 hac)
                        simp [hAC ▸ hba]
                  · have hAB : a = b := le_antisymm (not_lt.1 hba) (not_lt.1 hab)
                    by_cases hac : a < c
                    · exact Or.inr (by simp [hAB ▸ hac])
                    · by_cases hca : c < a
                      · simp [hac, hca] at h
                      · simp only [hac, hca, if_false] at h
                        rcases ih cs bs h with h' | h'
                        · exact Or.inl (by simp [hab, hba, h'])
                        · refine Or.inr ?side
                          have hbc : ¬ b < c := hAB ▸ hac
                          have hcb : ¬ c < b := hAB ▸ hca
                          simp [hbc, hcb, h']

theorem jsStringLt_asymm {x y : String} (h : jsStringLt x y = true) :
    jsStringLt y x = false :=
  jsStringLtAux_asymm h

theorem jsStringLt_cotrans {x z : String} (y : String) (h : jsStringLt x z = true) :
    jsStringLt x y = true ∨ jsStringLt y z = true :=
  jsStringLtAux_cotrans y.toList h

instance {ε α : Type} [DecidableEq ε] [DecidableEq α] : DecidableEq (Except ε α) := fun x y =>
  match x, y with
  | .ok a, .ok b =>
      if h : a = b then .isTrue (by rw [h]) else .isFalse (fun hc => h (Except.ok.inj hc))
  | .ok _, .error _ => .isFalse (fun hc => Except.noConfusion hc)
  | .error _, .ok _ => .isFalse (fun hc => Except.noConfusion hc)
  | .error e, .error f =>
      if h : e = f then .isTrue (by rw [h]) else .isFalse (fun hc => h (Except.error.inj hc))

/-- An error value as the code observes it: whether it is a `TypeError`
(the class `fetch` throws on network failure) and its message. -/
structure JsError where
  isTypeError : Bool
  message : String
deriving DecidableEq

namespace NotesFrontend

/-- The note shape produced by App.js's `normalizeNote` (no `updatedAt`). -/
structure FNote where
  id : String
  title : String
  content : String
  createdAt : String
deriving DecidableEq

/-- App.js `normalizeNote` (lines 414–421). -/
def normalizeNote (raw : RawNote) : FNote :=
  { id := raw.id.toStringJS
    title := (jsCoalesce raw.title (.str "")).toStringJS
    content := (jsCoalesce raw.content (.str "")).toStringJS
    createdAt := (jsCoalesce raw.created_at (jsCoalesce raw.createdAt (.str ""))).toStringJS }

/-- The inline normalization in `loadLocalNotesReadOnly` (lines 431–436);
its `createdAt` chain differs from `normalizeNote`. -/
def cacheEntryNote (n : RawNote) : FNote :=
  { id := n.id.toStringJS
    title := (jsCoalesce n.title (.str "")).toStringJS
    content := (jsCoalesce n.content (.str "")).toStringJS
    createdAt :=
      (jsCoalesce n.createdAt (jsCoalesce n.created_at (jsCoalesce n.updatedAt (.str "")))).toStringJS }

/-- App.js `loadLocalNotesReadOnly` (lines 423–441): any read or parse
failure is caught and yields `[]`; entries are normalized and those whose
(stringified) id is falsy, i.e. the empty string, are dropped. -/
def loadLocalNotesReadOnly : LocalStore → List FNote
  | .absent => []
  | .invalidJson => []
  | .jsonNonArray => []
  | .jsonArray es => (es.map cacheEntryNote).filter (fun n => n.id ≠ "")

/-- Serialization of a normalized note back into the stored JSON object. -/
def FNote.toRaw (n : FNote) : RawNote :=
  { id := .str n.id
    title := .str n.title
    content := .str n.content
    createdAt := .str n.createdAt }

/-- App.js `saveLocalNotesCache` (lines 443–449): overwrite the key with
the serialized array. -/
def saveLocalNotesCache (notes : List FNote) : LocalStore :=
  .jsonArray (notes.map FNote.toRaw)

/-- App.js `isNetworkUnreachableError` (lines 451–454). -/
def isNetworkUnreachableError (e : JsError) : Bool :=
  e.isTypeError

/-- Environment outcome of the single `GET {base}/notes` that
`listNotesFromBackend` performs. -/
inductive RemoteList where
  | unreachable
  | httpError (status : Nat) (body : String)
  | nonJsonBody
  | okNonArray
  | okArray (notes : List RawNote)
deriving DecidableEq

/-- App.js `listNotesFromBackend` (lines 457–467): non-2xx throws an
`Error` carrying the status; a 2xx body `res.json()` rejects is a
`SyntaxError` (not a `TypeError`); a 2xx non-array body yields `[]`. -/
def listNotesFromBackend : RemoteList → Except JsError (List FNote)
  | .unreachable => .error ⟨true, "Failed to fetch"⟩
  | .httpError s b =>
      .error ⟨false, "Failed to load notes (" ++ toString s ++ ")"
        ++ (if b = "" then "" else ": " ++ b)⟩
  | .nonJsonBody => .error ⟨false, "Unexpected token in JSON"⟩
  | .okNonArray => .ok []
  | .okArray rs => .ok (rs.map normalizeNote)

/-- Result record of App.js `loadNotesFromApiOrFallback`. -/
structure LoadOutcomeF where
  result : Except JsError (List FNote × Bool)
  store : LocalStore
  fetches : Nat
deriving DecidableEq

/-- App.js `loadNotesFromApiOrFallback` (lines 485–502).  The `Bool`
component of a successful result is the `usingFallback` flag. -/
def loadNotesFromApiOrFallback (notesUrl : String) (remote : RemoteList)
    (store : LocalStore) : LoadOutcomeF :=
  if notesUrl = "" then
    { result := .ok (loadLocalNotesReadOnly store, true), store := store, fetches := 0 }
  else
    match listNotesFromBackend remote with
    | .ok backendNotes =>
        { result := .ok (backendNotes, false)
          store := saveLocalNotesCache backendNotes
          fetches := 1 }
    | .error err =>
        if isNetworkUnreachableError err then
          { result := .ok (loadLocalNotesReadOnly store, true), store := store, fetches := 1 }
        else
          { result := .error err, store := store, fetches := 1 }

/-- Environment outcome of the single `POST {base}/notes` that
`createNoteOnBackend` performs. -/
inductive RemoteCreate where
  | unreachable
  | httpError (status : Nat) (body : String)
  | nonJsonBody
  | okJson (raw : RawNote)
deriving DecidableEq

/-- App.js `createNoteOnBackend` (lines 470–483). -/
def createNoteOnBackend : RemoteCreate → Except JsError FNote
  | .unreachable => .error ⟨true, "Failed to fetch"⟩
  | .httpError s b =>
      .error ⟨false, "Failed to create note (" ++ toString s ++ ")"
        ++ (if b = "" then "" else ": " ++ b)⟩
  | .nonJsonBody => .error ⟨false, "Unexpected token in JSON"⟩
  | .okJson raw => .ok (normalizeNote raw)

/-- Result record of App.js `createNoteViaApi`. -/
structure CreateOutcomeF where
  result : Except JsError FNote
  store : LocalStore
  fetches : Nat
deriving DecidableEq

/-- App.js `createNoteViaApi` (lines 504–523).  The draft itself only
feeds the request body, so it does not appear: the modelled `remote`
outcome already describes the server's response to it. -/
def createNoteViaApi (notesUrl : String) (remote : RemoteCreate)
    (store : LocalStore) : CreateOutcomeF :=
  if notesUrl = "" then
    { result := .error ⟨false, "Backend API is not configured."⟩, store := store, fetches := 0 }
  else
    match createNoteOnBackend remote with
    | .ok created =>
        let existing := loadLocalNotesReadOnly store
        let next := created :: existing.filter (fun n => n.id ≠ created.id)
        { result := .ok created, store := saveLocalNotesCache next, fetches := 1 }
    | .error err =>
        if isNetworkUnreachableError err then
          { result := .error ⟨false, "Backend is unreachable. Cannot create notes while offline."⟩
            store := store
            fetches := 1 }
        else
          { result := .error err, store := store, fetches := 1 }

/-- The create path of App.js `handleSave` (lines 121–152, with
`editingId` null): validation runs before any I/O. -/
def handleSave (notesUrl : String) (draft : Draft) (remote : RemoteCreate)
    (store : LocalStore) : CreateOutcomeF :=
  if validateDraft draft ≠ "" then
    { result := .error ⟨false, validateDraft draft⟩, store := store, fetches := 0 }
  else
    createNoteViaApi notesUrl remote store

/-- The `useMemo` configuration block of App.js (lines 14–32); the two
arguments are the values of `REACT_APP_BACKEND_URL` and
`REACT_APP_API_BASE` (`""` when unset). -/
def appConfig (backendEnv apiBaseEnv : String) : Bool × String :=
  let backend := stripTrailingSlash backendEnv
  let basePath :=
    if apiBaseEnv = "" then ""
    else if startsWithSlash apiBaseEnv then apiBaseEnv
    else "/" ++ apiBaseEnv
  let configured := backend ≠ "" && basePath ≠ ""
  (configured, if configured then backend ++ basePath ++ "/notes" else "")

end NotesFrontend

namespace Part000

/-- The note shape produced by part_000's `normalizeNote` (lines 402–410). -/
structure PNote where
  id : String
  title : String
  content : String
  updatedAt : String
  createdAt : String
deriving DecidableEq

/-- part_000 `normalizeNote` (lines 402–410); `now` is the value
`nowIso()` would return for fields missing from the raw object. -/
def normalizeNote (now : String) (raw : RawNote) : PNote :=
  { id := raw.id.toStringJS
    title := (jsCoalesce raw.title (.str "")).toStringJS
    content := (jsCoalesce raw.content (.str "")).toStringJS
    updatedAt := (jsCoalesce raw.updatedAt (jsCoalesce raw.updated_at (.str now))).toStringJS
    createdAt := (jsCoalesce raw.createdAt (jsCoalesce raw.created_at (.str now))).toStringJS }

/-- Serialization of a normalized note back into the stored JSON object. -/
def PNote.toRaw (n : PNote) : RawNote :=
  { id := .str n.id
    title := .str n.title
    content := .str n.content
    createdAt := .str n.createdAt
    updatedAt := .str n.updatedAt }

/-- The recency order used by part_000's comparator
`(a, b) => (a.updatedAt < b.updatedAt ? 1 : -1)`: `a` comes no later than
`b` exactly when `a.updatedAt < b.updatedAt` is false. -/
def updatedDesc (a b : PNote) : Prop :=
  jsStringLt a.updatedAt b.updatedAt = false

instance : DecidableRel updatedDesc := fun a b =>
  inferInstanceAs (Decidable (jsStringLt a.updatedAt b.updatedAt = false))

instance : IsTotal PNote updatedDesc :=
  ⟨fun a b => by
    unfold updatedDesc
    rcases h : jsStringLt a.updatedAt b.updatedAt with _ | _
    · exact Or.inl rfl
    · exact Or.inr (jsStringLt_asymm h)⟩

instance : IsTrans PNote updatedDesc :=
  ⟨fun a b c h1 h2 => by
    unfold updatedDesc at *
    rcases h : jsStringLt a.updatedAt c.updatedAt with _ | _
    · rfl
    · rcases jsStringLt_cotrans b.updatedAt h with h' | h'
      · rw [h1] at h'; cases h'
      · rw [h2] at h'; cases h'⟩

/-- `notes.sort((a, b) => (a.updatedAt < b.updatedAt ? 1 : -1))`: a stable
sort by `updatedAt` descending. -/
def sortByRecency (l : List PNote) : List PNote :=
  l.insertionSort updatedDesc

/-- part_000 `loadLocalNotes` (lines 412–418): NOT wrapped in try/catch,
so a stored string `JSON.parse` rejects makes the whole read throw. -/
def loadLocalNotes (now : String) : LocalStore → Except String (List PNote)
  | .absent => .ok []
  | .invalidJson => .error "Unexpected token in JSON"
  | .jsonNonArray => .ok []
  | .jsonArray es => .ok (sortByRecency (es.map (normalizeNote now)))

/-- part_000 `saveLocalNotes` (lines 420–422). -/
def saveLocalNotes (l : List PNote) : LocalStore :=
  .jsonArray (l.map PNote.toRaw)

/-- Environment outcome of the single fetch `apiListNotes` performs,
as classified by `tryApiFetch` (lines 424–442): network failure, non-2xx,
2xx with a non-JSON content type, 204, or a JSON body (an array or not). -/
inductive ApiListResult where
  | unreachable
  | httpError (status : Nat) (body : String)
  | nonJsonContentType
  | noContent204
  | okNonArray
  | okArray (notes : List RawNote)
deriving DecidableEq

/-- part_000 `apiListNotes` (lines 444–448) through `tryApiFetch`: the
successful value is `none` for a 204 (`null`), otherwise the JSON body
(`some` carries the array when it is one). -/
def apiListNotes : ApiListResult → Except String (Option (Option (List RawNote)))
  | .unreachable => .error "TypeError: Failed to fetch"
  | .httpError s b =>
      .error ("API error (" ++ toString s ++ ")" ++ (if b = "" then "" else ": " ++ b))
  | .nonJsonContentType => .error "API returned non-JSON response."
  | .noContent204 => .ok none
  | .okNonArray => .ok (some none)
  | .okArray ns => .ok (some (some ns))

/-- Result record of part_000 `loadNotes`. -/
structure LoadOutcomeP where
  result : Except String (List PNote)
  store : LocalStore
  fetches : Nat
deriving DecidableEq

/-- part_000 `loadNotes` (lines 484–500).  On API success the UNSORTED
normalized array is cached (the in-place `.sort` runs after
`saveLocalNotes` already serialized it) and the sorted array is returned;
on ANY API error the catch block falls back to `loadLocalNotes()`
(which itself throws on a corrupt cache, propagating that error). -/
def loadNotes (apiBase : String) (remote : ApiListResult) (store : LocalStore)
    (now : String) : LoadOutcomeP :=
  if apiBase = "" then
    { result := loadLocalNotes now store, store := store, fetches := 0 }
  else
    match apiListNotes remote with
    | .ok body =>
        let normalized :=
          match body with
          | some (some ns) => ns.map (normalizeNote now)
          | _ => []
        { result := .ok (sortByRecency normalized)
          store := saveLocalNotes normalized
          fetches := 1 }
    | .error _ =>
        { result := loadLocalNotes now store, store := store, fetches := 1 }

/-- Environment outcome of the single POST `apiCreateNote` performs. -/
inductive ApiCreateResult where
  | unreachable
  | httpError (status : Nat) (body : String)
  | nonJsonContentType
  | noContent204
  | okJson (raw : RawNote)
deriving DecidableEq

/-- Result record of part_000 `createNote`. -/
structure CreateOutcomeP where
  result : Except String PNote
  store : LocalStore
  fetches : Nat
deriving DecidableEq

/-- part_000 `createNote` (lines 502–528).  With a base URL, the try
block runs `apiCreateNote`, normalizes the response (a 204 yields `null`
and `normalizeNote(null)` throws, caught by the same catch-all) and
rewrites the cache; ANY failure inside the try falls through to the local
path, which synthesizes a record whose id is `generateId()` (passed as
`genId`) and whose timestamps are `nowIso()`, reading the cache UNguarded
(a corrupt cache makes the whole call throw the parse error). -/
def createNote (apiBase : String) (note : Draft) (remote : ApiCreateResult)
    (store : LocalStore) (now : String) (genId : String) : CreateOutcomeP :=
  let fetches := if apiBase = "" then 0 else 1
  let apiPhase : Option (PNote × LocalStore) :=
    if apiBase = "" then none
    else
      match remote with
      | .okJson raw =>
          let normalized := normalizeNote now raw
          match loadLocalNotes now store with
          | .ok existing =>
              some (normalized,
                saveLocalNotes (normalized :: existing.filter (fun n => n.id ≠ normalized.id)))
          | .error _ => none
      | _ => none
  match apiPhase with
  | some (normalized, store1) => { result := .ok normalized, store := store1, fetches }
  | none =>
      match loadLocalNotes now store with
      | .error e => { result := .error e, store := store, fetches }
      | .ok existing =>
          let newNote := normalizeNote now
            { id := .str genId
              title := .str note.title
              content := .str note.content
              createdAt := .str now
              updatedAt := .str now }
          { result := .ok newNote, store := saveLocalNotes (newNote :: existing), fetches }

/-- The create path of part_000 `handleSave` (lines 93–129, `editingId`
null): validation runs before any I/O. -/
def handleSaveCreate (apiBase : String) (draft : Draft) (remote : ApiCreateResult)
    (store : LocalStore) (now : String) (genId : String) : CreateOutcomeP :=
  if validateDraft draft ≠ "" then
    { result := .error (validateDraft draft), store := store, fetches := 0 }
  else
    createNote apiBase draft remote store now genId

/-- Environment outcome of the DELETE request `apiDeleteNote` performs
(part_000 lines 477–482); a 2xx with JSON body or a 204 succeeds. -/
inductive ApiDeleteResult where
  | unreachable
  | httpError (status : Nat) (body : String)
  | nonJsonContentType
  | ok2xx
deriving DecidableEq

/-- Result record of part_000 `deleteNote`. -/
structure DeleteOutcomeP where
  result : Except String Unit
  store : LocalStore
  fetches : Nat
deriving DecidableEq

/-- part_000 `deleteNote` (lines 557–573).  With a base URL the try block
deletes remotely then filters the cache; any failure inside it falls
through to the local path, which reads the cache (unguarded), filters out
`id` and stores the result. -/
def deleteNote (apiBase : String) (id : String) (remote : ApiDeleteResult)
    (store : LocalStore) (now : String) : DeleteOutcomeP :=
  let fetches := if apiBase = "" then 0 else 1
  let apiPhase : Option LocalStore :=
    if apiBase = "" then none
    else
      match remote with
      | .ok2xx =>
          match loadLocalNotes now store with
          | .ok existing => some (saveLocalNotes (existing.filter (fun n => n.id ≠ id)))
          | .error _ => none
      | _ => none
  match apiPhase with
  | some store1 => { result := .ok (), store := store1, fetches }
  | none =>
      match loadLocalNotes now store with
      | .error e => { result := .error e, store := store, fetches }
      | .ok existing =>
          { result := .ok ()
            store := saveLocalNotes (existing.filter (fun n => n.id ≠ id))
            fetches }

/-- The `useMemo` configuration block of part_000 (lines 14–22): take
`REACT_APP_API_BASE` if truthy, else `REACT_APP_BACKEND_URL`, then strip
one trailing slash.  Remote mode is active iff the result is nonempty. -/
def apiBaseConfig (apiBaseEnv backendEnv : String) : String :=
  stripTrailingSlash (if apiBaseEnv ≠ "" then apiBaseEnv else backendEnv)

/-- Normalizing a serialized normalized note gives it back. -/
theorem normalizeNote_toRaw (now : String) (n : PNote) :
    normalizeNote now n.toRaw = n := rfl

/-- Reading a just-saved cache yields the saved notes, recency-sorted. -/
theorem loadLocalNotes_saveLocalNotes (now : String) (l : List PNote) :
    loadLocalNotes now (saveLocalNotes l) = .ok (sortByRecency l) := by
  simp [loadLocalNotes, saveLocalNotes, List.map_map, Function.comp_def,
    normalizeNote_toRaw]

/-- The recency sort output is sorted. -/
theorem sortByRecency_sorted (l : List PNote) :
    (sortByRecency l).Sorted updatedDesc :=
  List.sorted_insertionSort updatedDesc l

/-- Sorting an already-sorted list is the identity. -/
theorem sortByRecency_eq_self {l : List PNote} (h : l.Sorted updatedDesc) :
    sortByRecency l = l :=
  h.insertionSort_eq

/-- Every list `loadLocalNotes` returns successfully is sorted. -/
theorem loadLocalNotes_sorted {now : String} {store : LocalStore} {l : List PNote}
    (h : loadLocalNotes now store = .ok l) : l.Sorted updatedDesc := by
  cases store with
  | absent => cases h; exact List.sorted_nil
  | invalidJson => cases h
  | jsonNonArray => cases h; exact List.sorted_nil
  | jsonArray es =>
      simp only [loadLocalNotes, Except.ok.injEq] at h
      exact h ▸ sortByRecency_sorted _

end Part000

/-- C1 counterexample: in the part_000 variant a non-transport error — an
HTTP 500 — does NOT propagate to the caller: listing falls back to the
local cache and reports success with the cached note, because the catch
block of `loadNotes` (part_000 lines 494–497) catches every error, not
just transport unreachability. -/
theorem c1_counterexample :
    Part000.loadNotes "http://h/api" (.httpError 500 "boom")
        (Part000.saveLocalNotes [⟨"a", "t", "c", "1", "1"⟩]) "now" =
      { result := .ok [⟨"a", "t", "c", "1", "1"⟩]
        store := Part000.saveLocalNotes [⟨"a", "t", "c", "1", "1"⟩]
        fetches := 1 } := by decide

/-- C1 (amended): in the notes_frontend variant, a listing error triggers
the cache fallback exactly when it is a transport-level unreachability
condition (a `TypeError`), and any other error is propagated to the
caller unchanged; in the part_000 variant, EVERY listing error triggers
fallback to the local cache (the caller then receives whatever the cache
read yields, including its own parse error on a corrupt cache). -/
theorem c1_fallback_only_on_unreachable
    (url : String) (hurl : url ≠ "") (remote : NotesFrontend.RemoteList)
    (store : LocalStore) (err : JsError)
    (herr : NotesFrontend.listNotesFromBackend remote = .error err)
    (base : String) (hbase : base ≠ "") (premote : Part000.ApiListResult)
    (pstore : LocalStore) (now e : String)
    (perr : Part000.apiListNotes premote = .error e) :
    (NotesFrontend.loadNotesFromApiOrFallback url remote store =
      if NotesFrontend.isNetworkUnreachableError err then
        { result := .ok (NotesFrontend.loadLocalNotesReadOnly store, true)
          store := store, fetches := 1 }
      else
        { result := .error err, store := store, fetches := 1 }) ∧
    Part000.loadNotes base premote pstore now =
      { result := Part000.loadLocalNotes now pstore, store := pstore, fetches := 1 } := by
  constructor
  · simp [NotesFrontend.loadNotesFromApiOrFallback, hurl, herr]
  · simp [Part000.loadNotes, hbase, perr]

/-- C1 witness: the amended theorem applied to a 404 against the
notes_frontend variant (propagated) and to transport failure against the
part_000 variant (fallback). -/
theorem c1_witness :
    NotesFrontend.loadNotesFromApiOrFallback "u" (.httpError 404 "") .absent =
      { result := .error ⟨false, "Failed to load notes (404)"⟩, store := .absent, fetches := 1 } ∧
    Part000.loadNotes "u" .unreachable .absent "now" =
      { result := .ok [], store := .absent, fetches := 1 } := by
  have h := c1_fallback_only_on_unreachable "u" (by decide) (.httpError 404 "") .absent
    ⟨false, "Failed to load notes (404)"⟩ (by decide) "u" (by decide) .unreachable .absent
    "now" "TypeError: Failed to fetch" (by decide)
  exact ⟨h.1.trans (by decide), h.2.trans (by decide)⟩

/-- C2: with no remote endpoint configured (empty URL/base), listing in
either variant returns exactly what the local cache read yields, leaves
the stored cache untouched, and issues no fetch. -/
theorem c2_local_only_listing (store : LocalStore) (remote : NotesFrontend.RemoteList)
    (premote : Part000.ApiListResult) (now : String) :
    NotesFrontend.loadNotesFromApiOrFallback "" remote store =
      { result := .ok (NotesFrontend.loadLocalNotesReadOnly store, true)
        store := store, fetches := 0 } ∧
    Part000.loadNotes "" premote store now =
      { result := Part000.loadLocalNotes now store, store := store, fetches := 0 } :=
  ⟨rfl, rfl⟩

/-- C3 counterexample: the notes_frontend variant returns a successful
remote read in the remote's own order, NOT sorted by recency — here the
older note ("2020-01-01") is returned before the newer one
("2024-01-01"). -/
theorem c3_counterexample :
    (NotesFrontend.loadNotesFromApiOrFallback "u"
        (.okArray [{ id := .str "a", created_at := .str "2020-01-01" },
                   { id := .str "b", created_at := .str "2024-01-01" }]) .absent).result =
      .ok ([⟨"a", "", "", "2020-01-01"⟩, ⟨"b", "", "", "2024-01-01"⟩], false) ∧
    ¬ List.Pairwise (fun a b => jsStringLt a.createdAt b.createdAt = false)
        [(⟨"a", "", "", "2020-01-01"⟩ : NotesFrontend.FNote),
         ⟨"b", "", "", "2024-01-01"⟩] := by
  constructor
  · decide
  · intro h
    have := (List.pairwise_cons.1 h).1 _ (List.mem_cons_self _ _)
    exact absurd this (by decide)

/-- C3 (amended): on a successful remote read both variants overwrite the
local cache with exactly the normalized remote data; the part_000 variant
returns that data sorted by recency (`updatedAt` descending — the cache
itself keeps the remote's order, since the in-place sort runs after the
cache write serialized it), while the notes_frontend variant returns it
unsorted, in the remote's order. -/
theorem c3_success_overwrites_cache
    (url : String) (hurl : url ≠ "") (rs : List RawNote) (store : LocalStore)
    (base : String) (hbase : base ≠ "") (prs : List RawNote) (pstore : LocalStore)
    (now : String) :
    NotesFrontend.loadNotesFromApiOrFallback url (.okArray rs) store =
      { result := .ok (rs.map NotesFrontend.normalizeNote, false)
        store := NotesFrontend.saveLocalNotesCache (rs.map NotesFrontend.normalizeNote)
        fetches := 1 } ∧
    Part000.loadNotes base (.okArray prs) pstore now =
      { result := .ok (Part000.sortByRecency (prs.map (Part000.normalizeNote now)))
        store := Part000.saveLocalNotes (prs.map (Part000.normalizeNote now))
        fetches := 1 } ∧
    (Part000.sortByRecency (prs.map (Part000.normalizeNote now))).Sorted Part000.updatedDesc := by
  refine ⟨?_, ?_, Part000.sortByRecency_sorted _⟩
  · simp [NotesFrontend.loadNotesFromApiOrFallback, hurl, NotesFrontend.listNotesFromBackend]
  · simp [Part000.loadNotes, hbase, Part000.apiListNotes]

/-- C3 witness: the amended theorem applied to a concrete two-note remote
read against an absent cache. -/
theorem c3_witness :
    NotesFrontend.loadNotesFromApiOrFallback "u"
        (.okArray [{ id := .str "a", created_at := .str "1" }]) .absent =
      { result := .ok ([⟨"a", "", "", "1"⟩], false)
        store := .jsonArray [{ id := .str "a", title := .str "", content := .str "",
                               createdAt := .str "1" }]
        fetches := 1 } ∧
    Part000.loadNotes "u" (.okArray [{ id := .str "a", updatedAt := .str "1" }]) .absent "n" =
      { result := .ok [⟨"a", "", "", "1", "n"⟩]
        store := .jsonArray [Part000.PNote.toRaw ⟨"a", "", "", "1", "n"⟩]
        fetches := 1 } := by
  have h := c3_success_overwrites_cache "u" (by decide)
    [{ id := .str "a", created_at := .str "1" }] .absent "u" (by decide)
    [{ id := .str "a", updatedAt := .str "1" }] .absent "n"
  exact ⟨h.1.trans (by decide), h.2.1.trans (by decide)⟩

/-- C4 counterexample: in the part_000 variant the result of a listing
that fell back (remote configured but unreachable) is NOT marked as a
fallback: its outcome — returned value, stored cache and fetch count —
is identical to that of a successful remote read returning the same
note, so no observable mark distinguishes the fallback. -/
theorem c4_counterexample :
    Part000.loadNotes "u" .unreachable
        (Part000.saveLocalNotes [⟨"a", "t", "c", "1", "1"⟩]) "now" =
      Part000.loadNotes "u" (.okArray [Part000.PNote.toRaw ⟨"a", "t", "c", "1", "1"⟩])
        (Part000.saveLocalNotes [⟨"a", "t", "c", "1", "1"⟩]) "now" := by decide

/-- C4 (amended): listing with a configured but unreachable remote
returns the prior local cache contents and leaves the stored cache
unchanged in both variants; only the notes_frontend variant marks the
result as a fallback (`usingFallback = true`) — the part_000 variant
returns the bare list with no fallback indication. -/
theorem c4_unreachable_returns_cache
    (url : String) (hurl : url ≠ "") (store : LocalStore)
    (base : String) (hbase : base ≠ "") (pstore : LocalStore) (now : String) :
    NotesFrontend.loadNotesFromApiOrFallback url .unreachable store =
      { result := .ok (NotesFrontend.loadLocalNotesReadOnly store, true)
        store := store, fetches := 1 } ∧
    Part000.loadNotes base .unreachable pstore now =
      { result := Part000.loadLocalNotes now pstore, store := pstore, fetches := 1 } := by
  constructor
  · simp [NotesFrontend.loadNotesFromApiOrFallback, hurl, NotesFrontend.listNotesFromBackend,
      NotesFrontend.isNetworkUnreachableError]
  · simp [Part000.loadNotes, hbase, Part000.apiListNotes]

/-- C4 witness: the amended theorem applied to a concrete cached note. -/
theorem c4_witness :
    NotesFrontend.loadNotesFromApiOrFallback "u" .unreachable
        (.jsonArray [{ id := .str "a" }]) =
      { result := .ok ([⟨"a", "", "", ""⟩], true)
        store := .jsonArray [{ id := .str "a" }], fetches := 1 } ∧
    Part000.loadNotes "u" .unreachable (.jsonArray [{ id := .str "a" }]) "n" =
      { result := .ok [⟨"a", "", "", "n", "n"⟩]
        store := .jsonArray [{ id := .str "a" }], fetches := 1 } := by
  have h := c4_unreachable_returns_cache "u" (by decide) (.jsonArray [{ id := .str "a" }])
    "u" (by decide) (.jsonArray [{ id := .str "a" }]) "n"
  exact ⟨h.1.trans (by decide), h.2.trans (by decide)⟩

set_option maxRecDepth 8000 in
/-- C5 counterexample: a 130-character title (one letter followed by 129
spaces) with nonempty content is ACCEPTED by `validateDraft` — the code
checks the length of the TRIMMED title — and creation proceeds to I/O
(one fetch) in both variants. -/
theorem c5_counterexample :
    (String.mk ('a' :: List.replicate 129 ' ')).length = 130 ∧
    validateDraft ⟨String.mk ('a' :: List.replicate 129 ' '), "c"⟩ = "" ∧
    (NotesFrontend.handleSave "u" ⟨String.mk ('a' :: List.replicate 129 ' '), "c"⟩
        (.okJson { id := .str "1" }) .absent).fetches = 1 ∧
    (Part000.handleSaveCreate "u" ⟨String.mk ('a' :: List.replicate 129 ' '), "c"⟩
        (.okJson { id := .str "1" }) .absent "now" "g1").fetches = 1 := by
  exact ⟨by decide, by decide, by decide, by decide⟩

/-- C5 (amended): creation is rejected with a validation error before any
I/O (no fetch, store untouched) when both the trimmed title and trimmed
content are empty, and when the TRIMMED title exceeds 120 characters —
in particular a title of 130 non-whitespace characters is rejected, but
a 130-character title whose trimmed length is at most 120 is accepted. -/
theorem c5_validation_before_io
    (d : Draft) (url : String) (remote : NotesFrontend.RemoteCreate) (store : LocalStore)
    (base now genId : String) (premote : Part000.ApiCreateResult) (pstore : LocalStore) :
    (jsTrim d.title = "" → jsTrim d.content = "" →
      validateDraft d = "Please add a title or some content." ∧
      NotesFrontend.handleSave url d remote store =
        { result := .error ⟨false, validateDraft d⟩, store := store, fetches := 0 } ∧
      Part000.handleSaveCreate base d premote pstore now genId =
        { result := .error (validateDraft d), store := pstore, fetches := 0 }) ∧
    ((jsTrim d.title).length > 120 →
      validateDraft d = "Title is too long (max 120 characters)." ∧
      NotesFrontend.handleSave url d remote store =
        { result := .error ⟨false, validateDraft d⟩, store := store, fetches := 0 } ∧
      Part000.handleSaveCreate base d premote pstore now genId =
        { result := .error (validateDraft d), store := pstore, fetches := 0 }) := by
  constructor
  · intro ht hc
    have hv : validateDraft d = "Please add a title or some content." := by
      simp [validateDraft, ht, hc]
    exact ⟨hv, by simp [NotesFrontend.handleSave, hv], by simp [Part000.handleSaveCreate, hv]⟩
  · intro hlen
    have hne : jsTrim d.title ≠ "" := by
      intro h0
      rw [h0] at hlen
      simp at hlen
    have hv : validateDraft d = "Title is too long (max 120 characters)." := by
      simp [validateDraft, hne, hlen]
    exact ⟨hv, by simp [NotesFrontend.handleSave, hv], by simp [Part000.handleSaveCreate, hv]⟩

set_option maxRecDepth 8000 in
/-- C5 witness: the amended theorem applied to the empty draft and to a
draft whose title is 130 letters. -/
theorem c5_witness :
    validateDraft ⟨"", ""⟩ = "Please add a title or some content." ∧
    validateDraft ⟨String.mk (List.replicate 130 'a'), ""⟩ =
      "Title is too long (max 120 characters)." ∧
    (NotesFrontend.handleSave "u" ⟨String.mk (List.replicate 130 'a'), ""⟩
        (.okJson { id := .str "1" }) .absent).fetches = 0 := by
  have h1 := c5_validation_before_io ⟨"", ""⟩ "u" (.okJson { id := .str "1" }) .absent
    "u" "now" "g1" (.okJson { id := .str "1" }) .absent
  have h2 := c5_validation_before_io ⟨String.mk (List.replicate 130 'a'), ""⟩ "u"
    (.okJson { id := .str "1" }) .absent "u" "now" "g1" (.okJson { id := .str "1" }) .absent
  refine ⟨(h1.1 (by decide) (by decide)).1, (h2.2 (by decide)).1, ?_⟩
  rw [(h2.2 (by decide)).2.1]

/-- Prepending an element with a given key to a list filtered free of that
key leaves exactly one element with that key. -/
theorem countP_key_dedup {α : Type} (key : α → String) (k : String) (x : α)
    (hx : key x = k) (l : List α) :
    (x :: l.filter (fun n => key n ≠ k)).countP (fun n => key n == k) = 1 := by
  rw [List.countP_cons_of_pos _ _ (by simp [hx])]
  have hzero : (l.filter (fun n => key n ≠ k)).countP (fun n => key n == k) = 0 := by
    rw [List.countP_eq_zero]
    intro a ha
    have h2 := (List.mem_filter.mp ha).2
    simp only [ne_eq, decide_not, Bool.not_eq_true'] at h2
    simpa using h2
  rw [hzero]

/-- C6 counterexample: in the part_000 variant a SUCCESSFUL remote create
performed against a corrupt local cache does not put the created note in
the cache at all — both cache reads throw the parse error, the cache is
left corrupt and the operation reports the parse error, even though the
remote accepted the note. -/
theorem c6_counterexample :
    Part000.createNote "u" ⟨"t", "c"⟩ (.okJson { id := .str "n1" }) .invalidJson "now" "g1" =
      { result := .error "Unexpected token in JSON", store := .invalidJson, fetches := 1 } := by
  decide

/-- C6 (amended): after a successful remote create, the created
(normalized) note is returned and the cache is rewritten to the created
note followed by the prior readable entries of any OTHER id, so the
cached list holds exactly one entry bearing the created note's id — in
the notes_frontend variant for every prior cache state, and in the
part_000 variant for every prior cache state the (unguarded) cache read
can parse. -/
theorem c6_create_merges_without_duplicate
    (url : String) (hurl : url ≠ "") (raw : RawNote) (store : LocalStore)
    (base : String) (hbase : base ≠ "") (note : Draft) (praw : RawNote)
    (pstore : LocalStore) (now genId : String) (pexisting : List Part000.PNote)
    (hpload : Part000.loadLocalNotes now pstore = .ok pexisting) :
    (NotesFrontend.createNoteViaApi url (.okJson raw) store).result =
      .ok (NotesFrontend.normalizeNote raw) ∧
    (NotesFrontend.createNoteViaApi url (.okJson raw) store).store =
      NotesFrontend.saveLocalNotesCache
        (NotesFrontend.normalizeNote raw ::
          (NotesFrontend.loadLocalNotesReadOnly store).filter
            (fun n => n.id ≠ (NotesFrontend.normalizeNote raw).id)) ∧
    (NotesFrontend.normalizeNote raw ::
        (NotesFrontend.loadLocalNotesReadOnly store).filter
          (fun n => n.id ≠ (NotesFrontend.normalizeNote raw).id)).countP
      (fun n => n.id == (NotesFrontend.normalizeNote raw).id) = 1 ∧
    Part000.createNote base note (.okJson praw) pstore now genId =
      { result := .ok (Part000.normalizeNote now praw)
        store := Part000.saveLocalNotes
          (Part000.normalizeNote now praw ::
            pexisting.filter (fun n => n.id ≠ (Part000.normalizeNote now praw).id))
        fetches := 1 } ∧
    (Part000.normalizeNote now praw ::
        pexisting.filter (fun n => n.id ≠ (Part000.normalizeNote now praw).id)).countP
      (fun n => n.id == (Part000.normalizeNote now praw).id) = 1 := by
  refine ⟨?_, ?_, countP_key_dedup NotesFrontend.FNote.id _ _ rfl _, ?_,
    countP_key_dedup Part000.PNote.id _ _ rfl _⟩
  · simp [NotesFrontend.createNoteViaApi, hurl, NotesFrontend.createNoteOnBackend]
  · simp [NotesFrontend.createNoteViaApi, hurl, NotesFrontend.createNoteOnBackend]
  · simp [Part000.createNote, hbase, hpload]

/-- C6 witness: the amended theorem applied in both variants to a remote
create whose id collides with a cached entry — the old entry is replaced,
not duplicated. -/
theorem c6_witness :
    (NotesFrontend.createNoteViaApi "u" (.okJson { id := .str "n1", title := .str "new" })
        (.jsonArray [{ id := .str "n1", title := .str "old" }])).store =
      .jsonArray [{ id := .str "n1", title := .str "new", content := .str "",
                    createdAt := .str "" }] ∧
    ([(⟨"n1", "new", "", ""⟩ : NotesFrontend.FNote)].countP (fun n => n.id == "n1") = 1) ∧
    Part000.createNote "u" ⟨"t", "c"⟩ (.okJson { id := .str "n1", title := .str "new" })
        (.jsonArray [{ id := .str "n1", title := .str "old",
                       updatedAt := .str "1", createdAt := .str "1" }]) "now" "g1" =
      { result := .ok ⟨"n1", "new", "", "now", "now"⟩
        store := .jsonArray [Part000.PNote.toRaw ⟨"n1", "new", "", "now", "now"⟩]
        fetches := 1 } := by
  have h := c6_create_merges_without_duplicate "u" (by decide)
    { id := .str "n1", title := .str "new" } (.jsonArray [{ id := .str "n1", title := .str "old" }])
    "u" (by decide) ⟨"t", "c"⟩ { id := .str "n1", title := .str "new" }
    (.jsonArray [{ id := .str "n1", title := .str "old",
                   updatedAt := .str "1", createdAt := .str "1" }]) "now" "g1"
    [⟨"n1", "old", "", "1", "1"⟩] (by decide)
  exact ⟨h.2.1.trans (by decide), h.2.2.1, h.2.2.2.1.trans (by decide)⟩

/-- C7 counterexample: in the part_000 variant, setting only
`REACT_APP_BACKEND_URL` (with `REACT_APP_API_BASE` absent) still enables
remote mode — the base URL is the single value and listing issues a
fetch — contradicting "absence of either value disables remote mode". -/
theorem c7_counterexample :
    Part000.apiBaseConfig "" "http://h" = "http://h" ∧
    (Part000.loadNotes (Part000.apiBaseConfig "" "http://h") .unreachable .absent "n").fetches
      = 1 := by decide

/-- C7 (amended): in the notes_frontend variant remote mode is enabled
exactly when the slash-stripped host value and the path value are both
nonempty, the URL is `{host}{/path}/notes`, and the absence of either
leaves the URL empty so listing issues no fetch; in the part_000 variant
the base is `REACT_APP_API_BASE` if nonempty, else `REACT_APP_BACKEND_URL`,
slash-stripped — so one value alone enables remote mode. -/
theorem c7_remote_mode_config (b a : String) :
    ((NotesFrontend.appConfig b a).1 = true ↔ (stripTrailingSlash b ≠ "" ∧ a ≠ "")) ∧
    ((a = "" ∨ stripTrailingSlash b = "") →
      (NotesFrontend.appConfig b a).2 = "" ∧
      ∀ remote store,
        (NotesFrontend.loadNotesFromApiOrFallback (NotesFrontend.appConfig b a).2
          remote store).fetches = 0) ∧
    (stripTrailingSlash b ≠ "" → a ≠ "" →
      (NotesFrontend.appConfig b a).2 =
        stripTrailingSlash b ++ (if startsWithSlash a then a else "/" ++ a) ++ "/notes") ∧
    Part000.apiBaseConfig "" b = stripTrailingSlash b ∧
    (stripTrailingSlash b ≠ "" →
      ∀ premote pstore now,
        (Part000.loadNotes (Part000.apiBaseConfig "" b) premote pstore now).fetches = 1) := by
  have hslash : ∀ s : String, "/" ++ s ≠ "" := by
    intro s h
    have hl := congrArg String.length h
    rw [String.length_append] at hl
    have h1 : ("/" : String).length = 1 := rfl
    have h0 : ("" : String).length = 0 := rfl
    rw [h1, h0] at hl
    omega
  refine ⟨?_, ?_, ?_, rfl, ?_⟩
  · by_cases ha : a = ""
    · simp [NotesFrontend.appConfig, ha]
    · by_cases hs : startsWithSlash a = true
      · simp [NotesFrontend.appConfig, ha, hs]
      · simp [NotesFrontend.appConfig, ha, hs, hslash a]
  · intro hor
    have h2 : (NotesFrontend.appConfig b a).2 = "" := by
      rcases hor with ha | hb
      · simp [NotesFrontend.appConfig, ha]
      · simp [NotesFrontend.appConfig, hb]
    exact ⟨h2, fun remote store => by rw [h2]; rfl⟩

  · intro hb ha
    by_cases hs : startsWithSlash a = true
    · simp [NotesFrontend.appConfig, hb, ha, hs]
    · simp [NotesFrontend.appConfig, hb, ha, hs, hslash a]
  · intro hb premote pstore now
    have hc : Part000.apiBaseConfig "" b = stripTrailingSlash b := rfl
    rw [hc]
    rcases h : Part000.apiListNotes premote with e | v <;>
      simp [Part000.loadNotes, hb, h]

/-- C7 witness: the amended theorem applied with the path value absent
(notes_frontend disabled, no fetch) and with only the host value set
(part_000 still fetches). -/
theorem c7_witness :
    (NotesFrontend.appConfig "http://h" "").2 = "" ∧
    (NotesFrontend.loadNotesFromApiOrFallback (NotesFrontend.appConfig "http://h" "").2
      .unreachable .absent).fetches = 0 ∧
    (Part000.loadNotes (Part000.apiBaseConfig "" "http://h") .unreachable .absent "n").fetches
      = 1 := by
  have h := c7_remote_mode_config "http://h" ""
  exact ⟨(h.2.1 (Or.inl rfl)).1, (h.2.1 (Or.inl rfl)).2 _ _,
    h.2.2.2.2 (by decide) _ _ _⟩

/-- C8 counterexample: a transport-failed create in the part_000 variant
with a corrupt local cache does NEITHER of the two stated policies: it
does not synthesize a local record (the cache is left unchanged) and it
does not refuse with an offline error — it propagates the cache's JSON
parse error, because the local fallback path reads the cache without a
try/catch. -/
theorem c8_counterexample :
    Part000.createNote "u" ⟨"t", "c"⟩ .unreachable .invalidJson "now" "g1" =
      { result := .error "Unexpected token in JSON", store := .invalidJson, fetches := 1 } := by
  decide

/-- C8 (amended): on a transport-failed create, the part_000 variant
(variant A) synthesizes a local record — id `generateId()`, timestamps
`nowIso()` — and prepends it to the cache, PROVIDED the local cache is
readable (otherwise the cache parse error propagates); the
notes_frontend variant (variant B) always refuses with the explicit
offline error and leaves the cache unchanged.  Neither variant mixes the
two policies. -/
theorem c8_offline_create_policies
    (base : String) (hbase : base ≠ "") (note : Draft) (store : LocalStore)
    (now genId : String) (existing : List Part000.PNote)
    (hload : Part000.loadLocalNotes now store = .ok existing)
    (url : String) (hurl : url ≠ "") (fstore : LocalStore) :
    Part000.createNote base note .unreachable store now genId =
      { result := .ok ⟨genId, note.title, note.content, now, now⟩
        store := Part000.saveLocalNotes (⟨genId, note.title, note.content, now, now⟩ :: existing)
        fetches := 1 } ∧
    NotesFrontend.createNoteViaApi url .unreachable fstore =
      { result := .error ⟨false, "Backend is unreachable. Cannot create notes while offline."⟩
        store := fstore
        fetches := 1 } := by
  constructor
  · simp [Part000.createNote, hbase, hload, Part000.normalizeNote, jsCoalesce,
      JSVal.isNullish, JSVal.toStringJS]
  · simp [NotesFrontend.createNoteViaApi, hurl, NotesFrontend.createNoteOnBackend,
      NotesFrontend.isNetworkUnreachableError]

/-- C8 witness: the amended theorem applied to a transport-failed create
against an absent cache in both variants. -/
theorem c8_witness :
    Part000.createNote "u" ⟨"t", "c"⟩ .unreachable .absent "now" "g1" =
      { result := .ok ⟨"g1", "t", "c", "now", "now"⟩
        store := .jsonArray [Part000.PNote.toRaw ⟨"g1", "t", "c", "now", "now"⟩]
        fetches := 1 } ∧
    NotesFrontend.createNoteViaApi "u" .unreachable .absent =
      { result := .error ⟨false, "Backend is unreachable. Cannot create notes while offline."⟩
        store := .absent
        fetches := 1 } := by
  have h := c8_offline_create_policies "u" (by decide) ⟨"t", "c"⟩ .absent "now" "g1" []
    (by decide) "u" (by decide) .absent
  exact ⟨h.1.trans (by decide), h.2⟩

/-- C9 counterexample: in local-only mode, deleting an id that is NOT in
the cache succeeds but does NOT leave the stored cache unchanged — the
delete rewrites the stored value in normalized, recency-sorted form, here
reordering the two entries. -/
theorem c9_counterexample :
    (Part000.deleteNote "" "z" .ok2xx
        (.jsonArray [{ id := .str "a", updatedAt := .str "1" },
                     { id := .str "b", updatedAt := .str "2" }]) "now").result = .ok () ∧
    (Part000.deleteNote "" "z" .ok2xx
        (.jsonArray [{ id := .str "a", updatedAt := .str "1" },
                     { id := .str "b", updatedAt := .str "2" }]) "now").store ≠
      .jsonArray [{ id := .str "a", updatedAt := .str "1" },
                  { id := .str "b", updatedAt := .str "2" }] := by decide

/-- C9 (amended): local-only delete is idempotent — once a delete has
succeeded, repeating it (at any later time) succeeds and leaves the
stored cache exactly as it was — and deleting an id absent from the
readable cache succeeds and preserves the cache CONTENTS: re-reading the
cache afterwards yields the same notes, although the stored value is
rewritten in normalized, recency-sorted form. -/
theorem c9_delete_idempotent
    (store : LocalStore) (id now now' : String) (r r' : Part000.ApiDeleteResult)
    (existing : List Part000.PNote) :
    ((Part000.deleteNote "" id r store now).result = .ok () →
      Part000.deleteNote "" id r' (Part000.deleteNote "" id r store now).store now' =
        { result := .ok ()
          store := (Part000.deleteNote "" id r store now).store
          fetches := 0 }) ∧
    (Part000.loadLocalNotes now store = .ok existing →
     (∀ n ∈ existing, n.id ≠ id) →
      (Part000.deleteNote "" id r store now).result = .ok () ∧
      Part000.loadLocalNotes now' (Part000.deleteNote "" id r store now).store =
        .ok existing) := by
  constructor
  · intro h
    cases hload : Part000.loadLocalNotes now store with
    | error e => simp [Part000.deleteNote, hload] at h
    | ok existing0 =>
        have hsorted := Part000.loadLocalNotes_sorted hload
        have hl1sorted : (existing0.filter (fun n => n.id ≠ id)).Sorted Part000.updatedDesc :=
          hsorted.filter _
        have hre : Part000.loadLocalNotes now'
            (Part000.saveLocalNotes (existing0.filter (fun n => n.id ≠ id))) =
            .ok (existing0.filter (fun n => n.id ≠ id)) := by
          rw [Part000.loadLocalNotes_saveLocalNotes, Part000.sortByRecency_eq_self hl1sorted]
        have hff : (existing0.filter (fun n => n.id ≠ id)).filter (fun n => n.id ≠ id) =
            existing0.filter (fun n => n.id ≠ id) :=
          List.filter_eq_self.mpr (fun a ha => (List.mem_filter.mp ha).2)
        simp only [ne_eq, decide_not] at hre hff
        simp [Part000.deleteNote, hload, hre, hff]
  · intro hload habs
    have hsorted := Part000.loadLocalNotes_sorted hload
    have hfil : existing.filter (fun n => n.id ≠ id) = existing :=
      List.filter_eq_self.mpr (fun a ha => decide_eq_true (habs a ha))
    constructor
    · simp [Part000.deleteNote, hload]
    · have hgoal : (Part000.deleteNote "" id r store now).store =
          Part000.saveLocalNotes existing := by
        simp only [ne_eq, decide_not] at hfil
        simp [Part000.deleteNote, hload, hfil]
      rw [hgoal, Part000.loadLocalNotes_saveLocalNotes,
        Part000.sortByRecency_eq_self hsorted]

/-- C9 witness: the amended theorem applied to a concrete two-note cache —
repeating a delete of "a" changes nothing further, and deleting the
absent id "z" succeeds with the same notes readable afterwards. -/
theorem c9_witness :
    Part000.deleteNote "" "a" .ok2xx
        (Part000.deleteNote "" "a" .ok2xx
          (.jsonArray [{ id := .str "a", updatedAt := .str "2" },
                       { id := .str "b", updatedAt := .str "1" }]) "now").store "later" =
      { result := .ok ()
        store := (Part000.deleteNote "" "a" .ok2xx
          (.jsonArray [{ id := .str "a", updatedAt := .str "2" },
                       { id := .str "b", updatedAt := .str "1" }]) "now").store
        fetches := 0 } ∧
    (Part000.deleteNote "" "z" .ok2xx
        (.jsonArray [{ id := .str "a", updatedAt := .str "2" },
                     { id := .str "b", updatedAt := .str "1" }]) "now").result = .ok () ∧
    Part000.loadLocalNotes "later"
        (Part000.deleteNote "" "z" .ok2xx
          (.jsonArray [{ id := .str "a", updatedAt := .str "2" },
                       { id := .str "b", updatedAt := .str "1" }]) "now").store =
      .ok [⟨"a", "", "", "2", "now"⟩, ⟨"b", "", "", "1", "now"⟩] := by
  have h1 := c9_delete_idempotent
    (.jsonArray [{ id := .str "a", updatedAt := .str "2" },
                 { id := .str "b", updatedAt := .str "1" }]) "a" "now" "later" .ok2xx .ok2xx []
  have h2 := c9_delete_idempotent
    (.jsonArray [{ id := .str "a", updatedAt := .str "2" },
                 { id := .str "b", updatedAt := .str "1" }]) "z" "now" "later" .ok2xx .ok2xx
    [⟨"a", "", "", "2", "now"⟩, ⟨"b", "", "", "1", "now"⟩]
  exact ⟨h1.1 (by decide), (h2.2 (by decide) (by decide)).1,
    (h2.2 (by decide) (by decide)).2⟩

/-- C10 counterexample: an entry with NO id field is not dropped by
`loadLocalNotesReadOnly` — `String(undefined)` is the truthy string
"undefined", so the entry is kept with that as its id. -/
theorem c10_counterexample :
    NotesFrontend.loadLocalNotesReadOnly (.jsonArray [{ title := .str "hello" }]) =
      [⟨"undefined", "hello", "", ""⟩] ∧
    NotesFrontend.loadLocalNotesReadOnly (.jsonArray [{ title := .str "hello" }]) ≠ [] := by
  decide

/-- C10 (amended): reading the local cache is total and never raises: an
absent key, a string `JSON.parse` rejects, or a non-array JSON value all
yield `[]`, and a stored array yields the normalized entries whose
STRINGIFIED id is nonempty — every returned note has a nonempty id, but
an entry with an absent (or null) id stringifies to "undefined" (resp.
"null") and is therefore kept, not dropped. -/
theorem c10_local_read_total (store : LocalStore) (es : List RawNote) :
    (∀ n ∈ NotesFrontend.loadLocalNotesReadOnly store, n.id ≠ "") ∧
    NotesFrontend.loadLocalNotesReadOnly (.jsonArray es) =
      (es.filter (fun r => r.id.toStringJS ≠ "")).map NotesFrontend.cacheEntryNote ∧
    NotesFrontend.loadLocalNotesReadOnly .absent = [] ∧
    NotesFrontend.loadLocalNotesReadOnly .invalidJson = [] ∧
    NotesFrontend.loadLocalNotesReadOnly .jsonNonArray = [] := by
  refine ⟨?_, ?_, rfl, rfl, rfl⟩
  · intro n hn
    cases store with
    | absent => cases hn
    | invalidJson => cases hn
    | jsonNonArray => cases hn
    | jsonArray es2 =>
        have h2 := (List.mem_filter.mp hn).2
        simpa using h2
  · rw [NotesFrontend.loadLocalNotesReadOnly, List.filter_map]
    rfl

/-- C10 witness: the amended theorem applied to a one-entry cache: the
note read back for a stored id "a" has a nonempty id. -/
theorem c10_witness :
    (NotesFrontend.cacheEntryNote { id := .str "a" }).id ≠ "" := by
  have h := c10_local_read_total (.jsonArray [{ id := .str "a" }]) []
  exact h.1 _ (by decide)
